import Mathlib

/-!
Verification development for the core of the reuse tool snippet
(`src/reuse/__init__.py`): the `ReuseInfo` record with its `copy` and
`copy_union` operations, and the path-classification pattern lists.

Python strings are modelled as `List Char`; Python sets as `Finset`;
the opaque license-expression type as a type parameter `α` with
decidable equality; keyword-argument dictionaries as a structure of
optional typed overrides plus a set of additional (unknown) keyword
names; a raised `KeyError` as the `Except.error` branch carrying the
set of offending attribute names.
-/

namespace Reuse

/-- The `SourceType` enumeration of the source: provenance of license
information. -/
inductive SourceType where
  | DOT_LICENSE_FILE
  | FILE_HEADER
  | DEP5_FILE
deriving DecidableEq

/-- The display text attached to each `SourceType` member in the source. -/
def SourceType.value : SourceType → String
  | .DOT_LICENSE_FILE => ".license file"
  | .FILE_HEADER => "file header"
  | .DEP5_FILE => ".reuse/dep5 file"

/-- The frozen dataclass `ReuseInfo` of the source: licensing and copyright
information for one file.  `α` stands for the opaque `Expression` type. -/
structure ReuseInfo (α : Type) where
  spdx_expressions : Finset α
  copyright_lines : Finset String
  contributor_lines : Finset String
  source_path : Option String
  source_type : Option SourceType
deriving DecidableEq

/-- The dataclass defaults: empty sets and `None` scalars. -/
def ReuseInfo.default (α : Type) : ReuseInfo α := ⟨∅, ∅, ∅, none, none⟩

/-- A keyword-argument dictionary passed to `copy` or `copy_union`: for each
attribute an optional override value, plus `extra`, the names of any further
keyword arguments that do not correspond to a typed field above. -/
structure Kwargs (α : Type) where
  spdx_expressions : Option (Finset α)
  copyright_lines : Option (Finset String)
  contributor_lines : Option (Finset String)
  source_path : Option (Option String)
  source_type : Option (Option SourceType)
  extra : Finset String

/-- The empty keyword dictionary. -/
def Kwargs.empty (α : Type) : Kwargs α := ⟨none, none, none, none, none, ∅⟩

/-- The attribute names of a `ReuseInfo` instance, `set(self.__dict__)` in the
source. -/
def attrNames : Finset String :=
  {"spdx_expressions", "copyright_lines", "contributor_lines", "source_path",
   "source_type"}

/-- The key set of a keyword dictionary, `set(kwargs)` in the source. -/
def Kwargs.keys {α : Type} (kw : Kwargs α) : Finset String :=
  (if kw.spdx_expressions.isSome then {"spdx_expressions"} else ∅) ∪
  (if kw.copyright_lines.isSome then {"copyright_lines"} else ∅) ∪
  (if kw.contributor_lines.isSome then {"contributor_lines"} else ∅) ∪
  (if kw.source_path.isSome then {"source_path"} else ∅) ∪
  (if kw.source_type.isSome then {"source_type"} else ∅) ∪
  kw.extra

/-- `_check_nonexistent`: the keyword names that do not name an attribute,
`set(kwargs) - set(self.__dict__)` in the source.  The call raises `KeyError`
exactly when this set is non-empty. -/
def Kwargs.nonexistent {α : Type} (kw : Kwargs α) : Finset String :=
  kw.keys \ attrNames

/-- `ReuseInfo.copy`, rendered with the receiver passed through explicitly:
the first component of the result is the receiver state when the call
returns.  The body of the source method only reads `self.__dict__`, builds a
fresh dictionary and constructs a new instance (the dataclass is frozen and
the body contains no field assignment), so the receiver is returned
unchanged.  Each attribute of the new record is `kwargs.get(key, value)`:
the override when the key is present, the existing value otherwise. -/
def ReuseInfo.copy_call {α : Type} (self : ReuseInfo α) (kw : Kwargs α) :
    ReuseInfo α × Except (Finset String) (ReuseInfo α) :=
  if kw.nonexistent.Nonempty then
    (self, Except.error kw.nonexistent)
  else
    (self, Except.ok
      ⟨kw.spdx_expressions.getD self.spdx_expressions,
       kw.copyright_lines.getD self.copyright_lines,
       kw.contributor_lines.getD self.contributor_lines,
       kw.source_path.getD self.source_path,
       kw.source_type.getD self.source_type⟩)

/-- The value returned (or the `KeyError` raised) by `ReuseInfo.copy`. -/
def ReuseInfo.copy {α : Type} (self : ReuseInfo α) (kw : Kwargs α) :
    Except (Finset String) (ReuseInfo α) :=
  (self.copy_call kw).2

/-- One attribute of `copy_union` on a set-valued field:
`value.union(kwargs.get(key)) if isinstance(value, set) and kwargs.get(key)
else kwargs.get(key, value)`.  A present, non-empty (truthy) override is
unioned with the current set; a present empty override replaces the set; an
absent override keeps the current set. -/
def unionOverride {β : Type} [DecidableEq β] (cur : Finset β)
    (ov : Option (Finset β)) : Finset β :=
  match ov with
  | some s => if s.Nonempty then cur ∪ s else s
  | none => cur

/-- `ReuseInfo.copy_union`, receiver passed through explicitly as in
`ReuseInfo.copy_call`.  Set-valued attributes follow `unionOverride`; the
scalar attributes follow plain `kwargs.get(key, value)` replacement. -/
def ReuseInfo.copy_union_call {α : Type} [DecidableEq α] (self : ReuseInfo α)
    (kw : Kwargs α) : ReuseInfo α × Except (Finset String) (ReuseInfo α) :=
  if kw.nonexistent.Nonempty then
    (self, Except.error kw.nonexistent)
  else
    (self, Except.ok
      ⟨unionOverride self.spdx_expressions kw.spdx_expressions,
       unionOverride self.copyright_lines kw.copyright_lines,
       unionOverride self.contributor_lines kw.contributor_lines,
       kw.source_path.getD self.source_path,
       kw.source_type.getD self.source_type⟩)

/-- The value returned (or the `KeyError` raised) by `ReuseInfo.copy_union`. -/
def ReuseInfo.copy_union {α : Type} [DecidableEq α] (self : ReuseInfo α)
    (kw : Kwargs α) : Except (Finset String) (ReuseInfo α) :=
  (self.copy_union_call kw).2

/-- `contains_copyright_or_licensing`:
`bool(self.spdx_expressions or self.copyright_lines)`. -/
def ReuseInfo.contains_copyright_or_licensing {α : Type}
    (self : ReuseInfo α) : Bool :=
  decide self.spdx_expressions.Nonempty || decide self.copyright_lines.Nonempty

/-- Python truthiness of an optional string: `None` and the empty string are
falsy, every other string is truthy. -/
def pyTruthyOptStr : Option String → Bool
  | none => false
  | some s => decide (s ≠ "")

/-- `ReuseInfo.__bool__`: `any(self.__dict__.values())`, that is, some
attribute value is truthy under Python truthiness.  A `SourceType` member is
always truthy; a string is truthy when non-empty; a set when non-empty. -/
def ReuseInfo.pybool {α : Type} (self : ReuseInfo α) : Bool :=
  decide self.spdx_expressions.Nonempty ||
  decide self.copyright_lines.Nonempty ||
  decide self.contributor_lines.Nonempty ||
  pyTruthyOptStr self.source_path ||
  self.source_type.isSome

/-!
Path-classification pattern lists.  Each compiled regular expression of the
source is translated into a boolean function on `List Char` (the model of a
Python string).  Matching in the source uses `re.match`, anchored at the
start of the string; `$` is modelled as the end of the string and the
regex wildcard dot as any single character.
-/

/-- Regex `^LICENSE` of `_IGNORE_FILE_PATTERNS`. -/
def license_file_pat (s : List Char) : Bool :=
  "LICENSE".toList.isPrefixOf s

/-- Regex `^COPYING` of `_IGNORE_FILE_PATTERNS`. -/
def copying_file_pat (s : List Char) : Bool :=
  "COPYING".toList.isPrefixOf s

/-- Regex `^\.git$` of `_IGNORE_FILE_PATTERNS`. -/
def dot_git_file_pat (s : List Char) : Bool := s == ".git".toList

/-- Regex `^\.gitkeep$` of `_IGNORE_FILE_PATTERNS`. -/
def gitkeep_file_pat (s : List Char) : Bool := s == ".gitkeep".toList

/-- Regex `^\.hgtags$` of `_IGNORE_FILE_PATTERNS`. -/
def hgtags_file_pat (s : List Char) : Bool := s == ".hgtags".toList

/-- Regex `.*\.license$` of `_IGNORE_FILE_PATTERNS`. -/
def dot_license_file_pat (s : List Char) : Bool :=
  ".license".toList.isSuffixOf s

/-- Regex fragment `(\..+)?$`: the remainder is empty, or a dot followed by
at least one character. -/
def opt_dot_ext : List Char → Bool
  | [] => true
  | '.' :: t => !t.isEmpty
  | _ => false

/-- Regex `^CAL-1.0(-Combined-Work-Exception)?(\..+)?$` of
`_IGNORE_FILE_PATTERNS`.  The dot after `1` is an unescaped regex wildcard
and matches any single character. -/
def cal_file_pat : List Char → Bool
  | 'C' :: 'A' :: 'L' :: '-' :: '1' :: _ :: '0' :: rest =>
      opt_dot_ext rest ||
      ("-Combined-Work-Exception".toList.isPrefixOf rest &&
        opt_dot_ext (rest.drop 24))
  | _ => false

/-- Regex `^SHL-2.1(\..+)?$` of `_IGNORE_FILE_PATTERNS`.  The dot after `2`
is an unescaped regex wildcard and matches any single character. -/
def shl_file_pat : List Char → Bool
  | 'S' :: 'H' :: 'L' :: '-' :: '2' :: _ :: '1' :: rest => opt_dot_ext rest
  | _ => false

/-- Regex `.*\.spdx$` of `_IGNORE_SPDX_PATTERNS`. -/
def spdx_file_pat (s : List Char) : Bool :=
  ".spdx".toList.isSuffixOf s

/-- The extension alternatives of `(rdf|json|xml|ya?ml)`. -/
def spdxExts : List String := ["rdf", "json", "xml", "yml", "yaml"]

/-- Regex `.*\.spdx.(rdf|json|xml|ya?ml)$` of `_IGNORE_SPDX_PATTERNS`.  The
dot after `spdx` is an unescaped regex wildcard and matches any single
character; the extension alternatives are matched case-sensitively (the
pattern is compiled without `re.IGNORECASE`). -/
def spdx_data_pat (s : List Char) : Bool :=
  spdxExts.any (fun e =>
    e.toList.reverse.isPrefixOf s.reverse &&
    ".spdx".toList.reverse.isPrefixOf (s.reverse.drop (e.toList.length + 1)))

/-- Modelled from the spec: the snippet defines the pattern lists but the
function applying them to a directory name lives outside it; per the spec, a
directory name is ignored when it matches one of the four anchored patterns
of `_IGNORE_DIR_PATTERNS` (`^\.git$`, `^\.hg$`, `^LICENSES$`, `^\.reuse$`). -/
def is_ignored_directory (s : List Char) : Bool :=
  s == ".git".toList || s == ".hg".toList || s == "LICENSES".toList ||
  s == ".reuse".toList

/-- Modelled from the spec: a file name is ignored when it matches one of
the patterns held by `_IGNORE_FILE_PATTERNS`, which at module load is
extended with the two `_IGNORE_SPDX_PATTERNS` entries. -/
def is_ignored_file (s : List Char) : Bool :=
  license_file_pat s || copying_file_pat s || dot_git_file_pat s ||
  gitkeep_file_pat s || hgtags_file_pat s || dot_license_file_pat s ||
  cal_file_pat s || shl_file_pat s || spdx_file_pat s || spdx_data_pat s

/-- Modelled from the spec: a file name is an SPDX metadata file when it
matches one of the two `_IGNORE_SPDX_PATTERNS` entries. -/
def is_spdx_metadata_file (s : List Char) : Bool :=
  spdx_file_pat s || spdx_data_pat s

/-!
Spec-side definitions.  These follow the words of the specification, not the
source, and exist to state the claims that compare the two.
-/

/-- The shape claimed by the spec for the legacy identifiers: the literal
name exactly, or the literal name followed by a dot and a non-empty
extension. -/
def lit_opt_ext (lit : List Char) (s : List Char) : Bool :=
  s == lit ||
  ((lit ++ ['.']).isPrefixOf s && decide (lit.length + 1 < s.length))

/-- The claimed reading of `is_spdx_metadata_file`: the name ends in
`.spdx`, or ends in `.spdx.` (with a literal dot) followed by one of the
extensions, matched case-insensitively. -/
def spec_spdx_metadata_claimed (s : List Char) : Bool :=
  ".spdx".toList.isSuffixOf s ||
  spdxExts.any (fun e =>
    ((s.reverse.take e.toList.length).map Char.toLower == e.toList.reverse) &&
    ".spdx.".toList.reverse.isPrefixOf (s.reverse.drop e.toList.length))

/-- The claimed reading of `is_ignored_file`: prefix patterns `LICENSE` and
`COPYING`, the exact names `.git`, `.gitkeep`, `.hgtags`, names ending in
`.license`, the legacy identifiers `CAL-1.0`,
`CAL-1.0-Combined-Work-Exception` and `SHL-2.1` read literally with an
optional dot and extension, and the SPDX-metadata patterns. -/
def spec_ignored_file_claimed (s : List Char) : Bool :=
  "LICENSE".toList.isPrefixOf s || "COPYING".toList.isPrefixOf s ||
  s == ".git".toList || s == ".gitkeep".toList || s == ".hgtags".toList ||
  ".license".toList.isSuffixOf s ||
  lit_opt_ext "CAL-1.0".toList s ||
  lit_opt_ext "CAL-1.0-Combined-Work-Exception".toList s ||
  lit_opt_ext "SHL-2.1".toList s ||
  is_spdx_metadata_file s

/-- Proposition form of `opt_dot_ext`: the remainder is empty, or a dot
followed by a non-empty extension. -/
def OptDotExt (r : List Char) : Prop :=
  r = [] ∨ ∃ t, r = '.' :: t ∧ t ≠ []

/-- Proposition form of the remainder accepted after `CAL-1⟨any⟩0`: an
optional `-Combined-Work-Exception`, then an optional dot and non-empty
extension. -/
def CalTailShape (rest : List Char) : Prop :=
  OptDotExt rest ∨
  ∃ rest2, rest = "-Combined-Work-Exception".toList ++ rest2 ∧ OptDotExt rest2

/-- Single-override keyword dictionary for `spdx_expressions`. -/
def Kwargs.onlySpdx {α : Type} (e : Finset α) : Kwargs α :=
  ⟨some e, none, none, none, none, ∅⟩

/-- Single-override keyword dictionary for `copyright_lines`. -/
def Kwargs.onlyCopyright {α : Type} (s : Finset String) : Kwargs α :=
  ⟨none, some s, none, none, none, ∅⟩

/-- Single-override keyword dictionary for `contributor_lines`. -/
def Kwargs.onlyContributor {α : Type} (s : Finset String) : Kwargs α :=
  ⟨none, none, some s, none, none, ∅⟩

/-- The record used to separate `__bool__` from the claimed truthiness rule:
all sets empty, no source type, and a present but empty source path. -/
def emptyPathRecord : ReuseInfo String := ⟨∅, ∅, ∅, some "", none⟩

/-!
Theorems.  Shared helper lemmas first, then one theorem per claim.
-/

/-- When every keyword names an attribute, `copy` succeeds and each field is
the override when present and the existing value otherwise. -/
theorem copy_ok {α : Type} (r : ReuseInfo α) (kw : Kwargs α)
    (h : kw.nonexistent = ∅) :
    r.copy kw = Except.ok
      ⟨kw.spdx_expressions.getD r.spdx_expressions,
       kw.copyright_lines.getD r.copyright_lines,
       kw.contributor_lines.getD r.contributor_lines,
       kw.source_path.getD r.source_path,
       kw.source_type.getD r.source_type⟩ := by
  simp [ReuseInfo.copy, ReuseInfo.copy_call, h]

/-- When every keyword names an attribute, `copy_union` succeeds, set fields
following `unionOverride` and scalar fields following replacement. -/
theorem copy_union_ok {α : Type} [DecidableEq α] (r : ReuseInfo α)
    (kw : Kwargs α) (h : kw.nonexistent = ∅) :
    r.copy_union kw = Except.ok
      ⟨unionOverride r.spdx_expressions kw.spdx_expressions,
       unionOverride r.copyright_lines kw.copyright_lines,
       unionOverride r.contributor_lines kw.contributor_lines,
       kw.source_path.getD r.source_path,
       kw.source_type.getD r.source_type⟩ := by
  simp [ReuseInfo.copy_union, ReuseInfo.copy_union_call, h]

/-- A single-override dictionary for `spdx_expressions` has no unknown
key. -/
theorem onlySpdx_nonexistent {α : Type} (e : Finset α) :
    (Kwargs.onlySpdx e).nonexistent = ∅ := by
  simp [Kwargs.onlySpdx, Kwargs.nonexistent, Kwargs.keys]
  decide

/-- A single-override dictionary for `copyright_lines` has no unknown
key. -/
theorem onlyCopyright_nonexistent {α : Type} (s : Finset String) :
    (Kwargs.onlyCopyright s : Kwargs α).nonexistent = ∅ := by
  simp [Kwargs.onlyCopyright, Kwargs.nonexistent, Kwargs.keys]
  decide

/-- A single-override dictionary for `contributor_lines` has no unknown
key. -/
theorem onlyContributor_nonexistent {α : Type} (s : Finset String) :
    (Kwargs.onlyContributor s : Kwargs α).nonexistent = ∅ := by
  simp [Kwargs.onlyContributor, Kwargs.nonexistent, Kwargs.keys]
  decide

/-- Claim C1: for every record and every override dictionary whose keys all
name existing attributes, `copy` returns a new record equal to the original
on every attribute not named in the overrides, and equal to the override
value exactly (replacement, no unioning) on every attribute that is
named. -/
theorem copy_replaces_exactly {α : Type} (r : ReuseInfo α) (kw : Kwargs α)
    (h : kw.nonexistent = ∅) :
    ∃ r2, r.copy kw = Except.ok r2 ∧
      (∀ v, kw.spdx_expressions = some v → r2.spdx_expressions = v) ∧
      (kw.spdx_expressions = none → r2.spdx_expressions = r.spdx_expressions) ∧
      (∀ v, kw.copyright_lines = some v → r2.copyright_lines = v) ∧
      (kw.copyright_lines = none → r2.copyright_lines = r.copyright_lines) ∧
      (∀ v, kw.contributor_lines = some v → r2.contributor_lines = v) ∧
      (kw.contributor_lines = none →
        r2.contributor_lines = r.contributor_lines) ∧
      (∀ v, kw.source_path = some v → r2.source_path = v) ∧
      (kw.source_path = none → r2.source_path = r.source_path) ∧
      (∀ v, kw.source_type = some v → r2.source_type = v) ∧
      (kw.source_type = none → r2.source_type = r.source_type) := by
  refine ⟨_, copy_ok r kw h, ?_, ?_, ?_, ?_, ?_, ?_, ?_, ?_, ?_, ?_⟩ <;>
    · intros
      simp_all

/-- Concrete instance of claim C1: a record with two populated fields,
overriding `copyright_lines` and `source_path`. -/
theorem copy_replaces_exactly_witness :
    (⟨none, some {"2025 Mr X"}, none, some (some "bar.py"), none, ∅⟩ :
        Kwargs String).nonexistent = ∅ ∧
    (∃ r2, (⟨{"MIT"}, {"2024 Jane"}, ∅, some "foo.py", none⟩ :
          ReuseInfo String).copy
        ⟨none, some {"2025 Mr X"}, none, some (some "bar.py"), none, ∅⟩ =
        Except.ok r2 ∧
      (∀ v, (none : Option (Finset String)) = some v →
        r2.spdx_expressions = v) ∧
      ((none : Option (Finset String)) = none →
        r2.spdx_expressions = {"MIT"}) ∧
      (∀ v, some ({"2025 Mr X"} : Finset String) = some v →
        r2.copyright_lines = v) ∧
      (some ({"2025 Mr X"} : Finset String) = none →
        r2.copyright_lines = {"2024 Jane"}) ∧
      (∀ v, (none : Option (Finset String)) = some v →
        r2.contributor_lines = v) ∧
      ((none : Option (Finset String)) = none →
        r2.contributor_lines = ∅) ∧
      (∀ v, some (some "bar.py") = some v → r2.source_path = v) ∧
      (some (some "bar.py") = (none : Option (Option String)) →
        r2.source_path = some "foo.py") ∧
      (∀ v, (none : Option (Option SourceType)) = some v →
        r2.source_type = v) ∧
      ((none : Option (Option SourceType)) = none →
        r2.source_type = none)) := by
  exact ⟨by decide, copy_replaces_exactly _ _ (by decide)⟩

/-- Claim C2: for every record, every set-valued attribute and every
non-empty override set, `copy_union` yields a result whose attribute is the
union of the original set and the override; the merge is idempotent (folding
the same evidence a second time returns the very same record) and
commutative (folding two override sets in either order yields the same
attribute). -/
theorem copy_union_merges_sets {α : Type} [DecidableEq α] (r : ReuseInfo α)
    (e : Finset α) (s t : Finset String)
    (he : e.Nonempty) (hs : s.Nonempty) (ht : t.Nonempty) :
    ∃ r1 r2 r3 r4,
      r.copy_union (Kwargs.onlySpdx e) = Except.ok r1 ∧
      r1.spdx_expressions = r.spdx_expressions ∪ e ∧
      r1.copy_union (Kwargs.onlySpdx e) = Except.ok r1 ∧
      r.copy_union (Kwargs.onlyCopyright s) = Except.ok r2 ∧
      r2.copyright_lines = r.copyright_lines ∪ s ∧
      r2.copy_union (Kwargs.onlyCopyright s) = Except.ok r2 ∧
      r.copy_union (Kwargs.onlyContributor t) = Except.ok r3 ∧
      r3.contributor_lines = r.contributor_lines ∪ t ∧
      r3.copy_union (Kwargs.onlyContributor t) = Except.ok r3 ∧
      r2.copy_union (Kwargs.onlyCopyright t) = Except.ok r4 ∧
      (∃ r5 r6, r.copy_union (Kwargs.onlyCopyright t) = Except.ok r5 ∧
        r5.copy_union (Kwargs.onlyCopyright s) = Except.ok r6 ∧
        r6.copyright_lines = r4.copyright_lines) := by
  have hse : (r.spdx_expressions ∪ e).Nonempty := he.mono Finset.subset_union_right
  have hss : (r.copyright_lines ∪ s).Nonempty := hs.mono Finset.subset_union_right
  have hts : (r.copyright_lines ∪ t).Nonempty := ht.mono Finset.subset_union_right
  have htt : (r.contributor_lines ∪ t).Nonempty :=
    ht.mono Finset.subset_union_right
  refine ⟨⟨r.spdx_expressions ∪ e, r.copyright_lines, r.contributor_lines,
      r.source_path, r.source_type⟩,
    ⟨r.spdx_expressions, r.copyright_lines ∪ s, r.contributor_lines,
      r.source_path, r.source_type⟩,
    ⟨r.spdx_expressions, r.copyright_lines, r.contributor_lines ∪ t,
      r.source_path, r.source_type⟩,
    ⟨r.spdx_expressions, r.copyright_lines ∪ s ∪ t, r.contributor_lines,
      r.source_path, r.source_type⟩,
    ?_, rfl, ?_, ?_, rfl, ?_, ?_, rfl, ?_, ?_,
    ⟨r.spdx_expressions, r.copyright_lines ∪ t, r.contributor_lines,
      r.source_path, r.source_type⟩,
    ⟨r.spdx_expressions, r.copyright_lines ∪ t ∪ s, r.contributor_lines,
      r.source_path, r.source_type⟩, ?_, ?_, ?_⟩
  · rw [copy_union_ok _ _ (onlySpdx_nonexistent e)]
    simp [Kwargs.onlySpdx, unionOverride, he]
  · rw [copy_union_ok _ _ (onlySpdx_nonexistent e)]
    simp [Kwargs.onlySpdx, unionOverride, he, hse, Finset.union_assoc,
      Finset.union_idempotent]
  · rw [copy_union_ok _ _ (onlyCopyright_nonexistent s)]
    simp [Kwargs.onlyCopyright, unionOverride, hs]
  · rw [copy_union_ok _ _ (onlyCopyright_nonexistent s)]
    simp [Kwargs.onlyCopyright, unionOverride, hs, hss, Finset.union_assoc,
      Finset.union_idempotent]
  · rw [copy_union_ok _ _ (onlyContributor_nonexistent t)]
    simp [Kwargs.onlyContributor, unionOverride, ht]
  · rw [copy_union_ok _ _ (onlyContributor_nonexistent t)]
    simp [Kwargs.onlyContributor, unionOverride, ht, htt, Finset.union_assoc,
      Finset.union_idempotent]
  · rw [copy_union_ok _ _ (onlyCopyright_nonexistent t)]
    simp [Kwargs.onlyCopyright, unionOverride, ht, hss]
  · rw [copy_union_ok _ _ (onlyCopyright_nonexistent t)]
    simp [Kwargs.onlyCopyright, unionOverride, ht]
  · rw [copy_union_ok _ _ (onlyCopyright_nonexistent s)]
    simp [Kwargs.onlyCopyright, unionOverride, hs, hts]
  · exact Finset.union_right_comm r.copyright_lines t s

/-- Concrete instance of claim C2. -/
theorem copy_union_merges_sets_witness :
    ({"Apache-2.0"} : Finset String).Nonempty ∧
    ({"2025 A"} : Finset String).Nonempty ∧
    ({"B"} : Finset String).Nonempty ∧
    (∃ r1 r2 r3 r4,
      (⟨{"MIT"}, {"2024 Jane"}, {"C"}, some "foo.py", none⟩ :
          ReuseInfo String).copy_union (Kwargs.onlySpdx {"Apache-2.0"}) =
        Except.ok r1 ∧
      r1.spdx_expressions = {"MIT"} ∪ {"Apache-2.0"} ∧
      r1.copy_union (Kwargs.onlySpdx {"Apache-2.0"}) = Except.ok r1 ∧
      (⟨{"MIT"}, {"2024 Jane"}, {"C"}, some "foo.py", none⟩ :
          ReuseInfo String).copy_union (Kwargs.onlyCopyright {"2025 A"}) =
        Except.ok r2 ∧
      r2.copyright_lines = {"2024 Jane"} ∪ {"2025 A"} ∧
      r2.copy_union (Kwargs.onlyCopyright {"2025 A"}) = Except.ok r2 ∧
      (⟨{"MIT"}, {"2024 Jane"}, {"C"}, some "foo.py", none⟩ :
          ReuseInfo String).copy_union (Kwargs.onlyContributor {"B"}) =
        Except.ok r3 ∧
      r3.contributor_lines = {"C"} ∪ {"B"} ∧
      r3.copy_union (Kwargs.onlyContributor {"B"}) = Except.ok r3 ∧
      r2.copy_union (Kwargs.onlyCopyright {"B"}) = Except.ok r4 ∧
      (∃ r5 r6,
        (⟨{"MIT"}, {"2024 Jane"}, {"C"}, some "foo.py", none⟩ :
            ReuseInfo String).copy_union (Kwargs.onlyCopyright {"B"}) =
          Except.ok r5 ∧
        r5.copy_union (Kwargs.onlyCopyright {"2025 A"}) = Except.ok r6 ∧
        r6.copyright_lines = r4.copyright_lines)) := by
  exact ⟨by decide, by decide, by decide,
    copy_union_merges_sets _ _ _ _ (by decide) (by decide) (by decide)⟩

/-- Claim C3: an override dictionary holding at least one keyword that does
not name an attribute makes both `copy` and `copy_union` raise the lookup
error (`KeyError`), however many valid keys are present in the same call,
and no new record is produced. -/
theorem copy_unknown_key_errors {α : Type} [DecidableEq α] (r : ReuseInfo α)
    (kw : Kwargs α) (h : ∃ k ∈ kw.keys, k ∉ attrNames) :
    r.copy kw = Except.error kw.nonexistent ∧
    r.copy_union kw = Except.error kw.nonexistent ∧
    (∀ r2, r.copy kw ≠ Except.ok r2) ∧
    (∀ r2, r.copy_union kw ≠ Except.ok r2) := by
  obtain ⟨k, hk, hna⟩ := h
  have hne : kw.nonexistent.Nonempty :=
    ⟨k, Finset.mem_sdiff.mpr ⟨hk, hna⟩⟩
  refine ⟨?_, ?_, ?_, ?_⟩ <;>
    simp [ReuseInfo.copy, ReuseInfo.copy_call, ReuseInfo.copy_union,
      ReuseInfo.copy_union_call, hne]

/-- Concrete instance of claim C3: one valid key and one bogus key. -/
theorem copy_unknown_key_errors_witness :
    (∃ k ∈ (⟨none, some {"2025 A"}, none, none, none, {"bogus"}⟩ :
        Kwargs String).keys, k ∉ attrNames) ∧
    ((⟨{"MIT"}, ∅, ∅, none, none⟩ : ReuseInfo String).copy
        ⟨none, some {"2025 A"}, none, none, none, {"bogus"}⟩ =
      Except.error (Kwargs.nonexistent
        (⟨none, some {"2025 A"}, none, none, none, {"bogus"}⟩ :
          Kwargs String)) ∧
    (⟨{"MIT"}, ∅, ∅, none, none⟩ : ReuseInfo String).copy_union
        ⟨none, some {"2025 A"}, none, none, none, {"bogus"}⟩ =
      Except.error (Kwargs.nonexistent
        (⟨none, some {"2025 A"}, none, none, none, {"bogus"}⟩ :
          Kwargs String)) ∧
    (∀ r2, (⟨{"MIT"}, ∅, ∅, none, none⟩ : ReuseInfo String).copy
        ⟨none, some {"2025 A"}, none, none, none, {"bogus"}⟩ ≠
      Except.ok r2) ∧
    (∀ r2, (⟨{"MIT"}, ∅, ∅, none, none⟩ : ReuseInfo String).copy_union
        ⟨none, some {"2025 A"}, none, none, none, {"bogus"}⟩ ≠
      Except.ok r2)) := by
  exact ⟨by decide, copy_unknown_key_errors _ _ (by decide)⟩

/-- Claim C4: neither `copy` nor `copy_union` mutates the receiver: in the
receiver-passing rendering of the method bodies, the receiver state returned
by the call equals the original record, for every record and every override
dictionary, on both the error and the success path. -/
theorem copy_never_mutates {α : Type} [DecidableEq α] (r : ReuseInfo α)
    (kw : Kwargs α) :
    (r.copy_call kw).1 = r ∧ (r.copy_union_call kw).1 = r := by
  refine ⟨?_, ?_⟩
  · unfold ReuseInfo.copy_call
    split <;> rfl
  · unfold ReuseInfo.copy_union_call
    split <;> rfl

/-- Counterexample to claim C8 as stated: a record whose only populated
attribute is `source_path = some ""` is not `None` there, yet `__bool__` is
false, because Python truthiness also treats the empty string as falsy. -/
theorem pybool_claim_counterexample :
    ¬ (emptyPathRecord.pybool = true ↔
      (emptyPathRecord.spdx_expressions ≠ ∅ ∨
       emptyPathRecord.copyright_lines ≠ ∅ ∨
       emptyPathRecord.contributor_lines ≠ ∅ ∨
       emptyPathRecord.source_path ≠ none ∨
       emptyPathRecord.source_type ≠ none)) := by decide

/-- Claim C8 as amended: a record is falsy exactly when the three sets are
empty, `source_path` is `None` or the empty string, and `source_type` is
`None`; any other record is truthy. -/
theorem pybool_false_iff {α : Type} (r : ReuseInfo α) :
    r.pybool = false ↔
      (r.spdx_expressions = ∅ ∧ r.copyright_lines = ∅ ∧
       r.contributor_lines = ∅ ∧
       (r.source_path = none ∨ r.source_path = some "") ∧
       r.source_type = none) := by
  obtain ⟨e, c, t, p, st⟩ := r
  cases p <;> cases st <;>
    simp [ReuseInfo.pybool, pyTruthyOptStr,
      Finset.not_nonempty_iff_eq_empty, and_assoc]

/-- Claim C9: `contains_copyright_or_licensing` is true exactly when
`spdx_expressions` or `copyright_lines` is non-empty, and in particular is
false on every record whose only populated attribute is
`contributor_lines`. -/
theorem contains_copyright_or_licensing_iff {α : Type} (r : ReuseInfo α) :
    (r.contains_copyright_or_licensing = true ↔
      (r.spdx_expressions ≠ ∅ ∨ r.copyright_lines ≠ ∅)) ∧
    (∀ ct : Finset String,
      (⟨∅, ∅, ct, none, none⟩ :
        ReuseInfo α).contains_copyright_or_licensing = false) := by
  constructor
  · simp [ReuseInfo.contains_copyright_or_licensing,
      Finset.nonempty_iff_ne_empty]
  · intro ct
    simp [ReuseInfo.contains_copyright_or_licensing]

/-- Claim C10: when no set-valued attribute receives a non-empty override,
`copy_union` returns the same record as `copy`; in particular an explicit
empty-set override clears the attribute in both operations. -/
theorem copy_union_eq_copy_without_set_overrides {α : Type} [DecidableEq α]
    (r : ReuseInfo α) (kw : Kwargs α) (h : kw.nonexistent = ∅)
    (h1 : kw.spdx_expressions = none ∨ kw.spdx_expressions = some ∅)
    (h2 : kw.copyright_lines = none ∨ kw.copyright_lines = some ∅)
    (h3 : kw.contributor_lines = none ∨ kw.contributor_lines = some ∅) :
    r.copy_union kw = r.copy kw ∧
    (∃ r2, r.copy kw = Except.ok r2 ∧ r.copy_union kw = Except.ok r2 ∧
      (kw.spdx_expressions = some ∅ → r2.spdx_expressions = ∅) ∧
      (kw.copyright_lines = some ∅ → r2.copyright_lines = ∅) ∧
      (kw.contributor_lines = some ∅ → r2.contributor_lines = ∅)) := by
  have hcopy := copy_ok r kw h
  have hcu := copy_union_ok r kw h
  have e1 : unionOverride r.spdx_expressions kw.spdx_expressions =
      kw.spdx_expressions.getD r.spdx_expressions := by
    rcases h1 with h1 | h1 <;> simp [h1, unionOverride]
  have e2 : unionOverride r.copyright_lines kw.copyright_lines =
      kw.copyright_lines.getD r.copyright_lines := by
    rcases h2 with h2 | h2 <;> simp [h2, unionOverride]
  have e3 : unionOverride r.contributor_lines kw.contributor_lines =
      kw.contributor_lines.getD r.contributor_lines := by
    rcases h3 with h3 | h3 <;> simp [h3, unionOverride]
  rw [hcu, hcopy, e1, e2, e3]
  refine ⟨rfl, _, rfl, rfl, ?_, ?_, ?_⟩ <;>
    · intro hv
      simp [hv]

/-- Concrete instance of claim C10: an empty-set override for
`copyright_lines` and a scalar override for `source_path`. -/
theorem copy_union_eq_copy_without_set_overrides_witness :
    (⟨none, some ∅, none, some (some "p.py"), none, ∅⟩ :
        Kwargs String).nonexistent = ∅ ∧
    ((none : Option (Finset String)) = none ∨
      (none : Option (Finset String)) = some ∅) ∧
    ((some ∅ : Option (Finset String)) = none ∨
      (some ∅ : Option (Finset String)) = some ∅) ∧
    ((none : Option (Finset String)) = none ∨
      (none : Option (Finset String)) = some ∅) ∧
    ((⟨{"MIT"}, {"2024 Jane"}, ∅, none, none⟩ :
          ReuseInfo String).copy_union
        ⟨none, some ∅, none, some (some "p.py"), none, ∅⟩ =
      (⟨{"MIT"}, {"2024 Jane"}, ∅, none, none⟩ : ReuseInfo String).copy
        ⟨none, some ∅, none, some (some "p.py"), none, ∅⟩ ∧
    (∃ r2, (⟨{"MIT"}, {"2024 Jane"}, ∅, none, none⟩ :
          ReuseInfo String).copy
        ⟨none, some ∅, none, some (some "p.py"), none, ∅⟩ =
        Except.ok r2 ∧
      (⟨{"MIT"}, {"2024 Jane"}, ∅, none, none⟩ :
          ReuseInfo String).copy_union
        ⟨none, some ∅, none, some (some "p.py"), none, ∅⟩ =
        Except.ok r2 ∧
      ((none : Option (Finset String)) = some ∅ →
        r2.spdx_expressions = ∅) ∧
      ((some ∅ : Option (Finset String)) = some ∅ →
        r2.copyright_lines = ∅) ∧
      ((none : Option (Finset String)) = some ∅ →
        r2.contributor_lines = ∅))) := by
  exact ⟨by decide, by decide, by decide, by decide,
    copy_union_eq_copy_without_set_overrides _ _ (by decide) (by decide)
      (by decide) (by decide)⟩

/-- The executable remainder check agrees with its proposition form. -/
theorem opt_dot_ext_iff (r : List Char) :
    opt_dot_ext r = true ↔ OptDotExt r := by
  unfold opt_dot_ext OptDotExt
  split
  · simp
  · next t =>
    constructor
    · intro h
      refine Or.inr ⟨t, rfl, ?_⟩
      simpa using h
    · rintro (h | ⟨t2, heq, ht⟩)
      · exact absurd h (by simp)
      · injection heq with h1 h2
        subst h2
        simpa using ht
  · next h1 h2 =>
    simp only [Bool.false_eq_true, false_iff]
    rintro (rfl | ⟨t, rfl, ht⟩)
    · exact h1 rfl
    · exact h2 t rfl

/-- Characterization of the `CAL-1.0` pattern: five literal characters, a
wildcard character, the literal `0`, and then an optional
`-Combined-Work-Exception` and an optional dot plus extension. -/
theorem cal_file_pat_iff (s : List Char) :
    cal_file_pat s = true ↔
      ∃ c rest, s = 'C' :: 'A' :: 'L' :: '-' :: '1' :: c :: '0' :: rest ∧
        CalTailShape rest := by
  have hl : ("-Combined-Work-Exception".toList).length = 24 := by decide
  unfold cal_file_pat
  split
  · next c rest =>
    constructor
    · intro h
      rw [Bool.or_eq_true] at h
      refine ⟨c, rest, rfl, ?_⟩
      unfold CalTailShape
      rcases h with h | h
      · exact Or.inl ((opt_dot_ext_iff rest).mp h)
      · rw [Bool.and_eq_true, List.isPrefixOf_iff_prefix] at h
        obtain ⟨hp, hd⟩ := h
        have h24 := List.prefix_iff_eq_append.mp hp
        rw [hl] at h24
        exact Or.inr ⟨rest.drop 24, h24.symm, (opt_dot_ext_iff _).mp hd⟩
    · rintro ⟨c2, rest2, heq, htail⟩
      simp only [List.cons.injEq, true_and] at heq
      obtain ⟨h1, h2⟩ := heq
      subst h1; subst h2
      rw [Bool.or_eq_true]
      rcases htail with h | ⟨rest3, rfl, h3⟩
      · exact Or.inl ((opt_dot_ext_iff _).mpr h)
      · rw [Bool.and_eq_true, List.isPrefixOf_iff_prefix]
        refine Or.inr ⟨List.prefix_append _ _, ?_⟩
        rw [List.drop_left' hl]
        exact (opt_dot_ext_iff _).mpr h3
  · next hcatch =>
    constructor
    · intro h; simp at h
    · rintro ⟨c, rest, rfl, _⟩
      exact absurd rfl (fun h => hcatch c rest h)

/-- Characterization of the `SHL-2.1` pattern: five literal characters, a
wildcard character, the literal `1`, and then an optional dot plus
extension. -/
theorem shl_file_pat_iff (s : List Char) :
    shl_file_pat s = true ↔
      ∃ c rest, s = 'S' :: 'H' :: 'L' :: '-' :: '2' :: c :: '1' :: rest ∧
        OptDotExt rest := by
  unfold shl_file_pat
  split
  · next c rest =>
    constructor
    · intro h
      exact ⟨c, rest, rfl, (opt_dot_ext_iff rest).mp h⟩
    · rintro ⟨c2, rest2, heq, htail⟩
      simp only [List.cons.injEq, true_and] at heq
      obtain ⟨h1, h2⟩ := heq
      subst h1; subst h2
      exact (opt_dot_ext_iff _).mpr htail
  · next hcatch =>
    constructor
    · intro h; simp at h
    · rintro ⟨c, rest, rfl, _⟩
      exact absurd rfl (fun h => hcatch c rest h)

/-- A reversed-prefix pair with a one-character gap is the same as a suffix
through one wildcard character: `x` reversed is a prefix of `u` and `y` a
prefix of what remains after one further character exactly when some
character `c` makes `x.reverse ++ c :: y` a prefix of `u`. -/
theorem rev_prefix_wildcard_iff (x y u : List Char) (hy : y ≠ []) :
    (x.reverse <+: u ∧ y <+: u.drop (x.length + 1)) ↔
      ∃ c, x.reverse ++ c :: y <+: u := by
  have hxl : x.reverse.length = x.length := List.length_reverse x
  constructor
  · rintro ⟨⟨w, rfl⟩, hdrop⟩
    rw [← hxl, List.drop_append 1] at hdrop
    cases w with
    | nil =>
      simp at hdrop
      exact absurd hdrop hy
    | cons a w2 =>
      rw [List.drop_one] at hdrop
      obtain ⟨v, rfl⟩ := hdrop
      exact ⟨a, ⟨v, by simp⟩⟩
  · rintro ⟨c, ⟨v, rfl⟩⟩
    constructor
    · simp
    · rw [← hxl, List.append_assoc, List.drop_append 1]
      simp

/-- Characterization of the SPDX data-format pattern: some extension of the
alternation, preceded by one wildcard character, preceded by `.spdx`, as a
suffix of the name. -/
theorem spdx_data_pat_iff (s : List Char) :
    spdx_data_pat s = true ↔
      ∃ c e, e ∈ spdxExts ∧ (".spdx".toList ++ c :: e.toList) <:+ s := by
  unfold spdx_data_pat
  rw [List.any_eq_true]
  constructor
  · rintro ⟨e, he, hcond⟩
    rw [Bool.and_eq_true, List.isPrefixOf_iff_prefix,
      List.isPrefixOf_iff_prefix] at hcond
    obtain ⟨c, hc⟩ :=
      (rev_prefix_wildcard_iff e.toList (".spdx".toList.reverse) s.reverse
        (by decide)).mp hcond
    refine ⟨c, e, he, ?_⟩
    rw [← List.reverse_prefix]
    simpa [List.reverse_append] using hc
  · rintro ⟨c, e, he, hsuf⟩
    refine ⟨e, he, ?_⟩
    rw [Bool.and_eq_true, List.isPrefixOf_iff_prefix,
      List.isPrefixOf_iff_prefix]
    refine (rev_prefix_wildcard_iff e.toList (".spdx".toList.reverse)
      s.reverse (by decide)).mpr ⟨c, ?_⟩
    rw [← List.reverse_prefix] at hsuf
    simpa [List.reverse_append] using hsuf

/-- Claim C7: a directory name is ignored exactly when it equals one of
`.git`, `.hg`, `LICENSES`, `.reuse`; in particular `.git` is ignored and
`src` is not. -/
theorem is_ignored_directory_spec :
    (∀ s : List Char, is_ignored_directory s = true ↔
      (s = ".git".toList ∨ s = ".hg".toList ∨ s = "LICENSES".toList ∨
       s = ".reuse".toList)) ∧
    is_ignored_directory ".git".toList = true ∧
    is_ignored_directory "src".toList = false := by
  refine ⟨?_, by decide, by decide⟩
  intro s
  simp [is_ignored_directory, or_assoc]

/-- Counterexample to claim C6 as stated: the extension alternation of the
source pattern is compiled without `re.IGNORECASE`, so `a.spdx.JSON` is not
recognized although the claimed case-insensitive reading accepts it. -/
theorem spdx_metadata_claim_counterexample :
    ¬ (is_spdx_metadata_file "a.spdx.JSON".toList = true ↔
       spec_spdx_metadata_claimed "a.spdx.JSON".toList = true) := by decide

/-- Claim C6 as amended: a name is an SPDX metadata file exactly when it
ends in `.spdx`, or ends in `.spdx` followed by one arbitrary character and
one of the extensions `rdf`, `json`, `xml`, `yml`, `yaml`, matched
case-sensitively (the dot of the source regex after `spdx` is an unescaped
wildcard and the pattern carries no ignore-case flag). -/
theorem is_spdx_metadata_file_iff (s : List Char) :
    is_spdx_metadata_file s = true ↔
      (".spdx".toList <:+ s ∨
        ∃ c e, e ∈ spdxExts ∧ (".spdx".toList ++ c :: e.toList) <:+ s) := by
  unfold is_spdx_metadata_file spdx_file_pat
  rw [Bool.or_eq_true, List.isSuffixOf_iff_suffix, spdx_data_pat_iff]

/-- Counterexample to claim C5 as stated: the dot of `CAL-1.0` in the source
regex is an unescaped wildcard, so the name `CAL-1x0` is ignored although it
matches none of the shapes enumerated by the claim. -/
theorem ignored_file_claim_counterexample :
    ¬ (is_ignored_file "CAL-1x0".toList = true ↔
       spec_ignored_file_claimed "CAL-1x0".toList = true) := by decide

/-- Claim C5 as amended: a file name is ignored exactly when it starts with
`LICENSE` or `COPYING`, equals `.git`, `.gitkeep` or `.hgtags`, ends in
`.license`, matches the legacy patterns `CAL-1⟨any⟩0` (optionally
`-Combined-Work-Exception`, optionally a dot and extension) or `SHL-2⟨any⟩1`
(optionally a dot and extension) with the unescaped regex dot matching any
character, or matches one of the two SPDX-metadata patterns. -/
theorem is_ignored_file_iff (s : List Char) :
    is_ignored_file s = true ↔
      ("LICENSE".toList <+: s ∨ "COPYING".toList <+: s ∨
       s = ".git".toList ∨ s = ".gitkeep".toList ∨ s = ".hgtags".toList ∨
       ".license".toList <:+ s ∨
       (∃ c rest, s = 'C' :: 'A' :: 'L' :: '-' :: '1' :: c :: '0' :: rest ∧
         CalTailShape rest) ∨
       (∃ c rest, s = 'S' :: 'H' :: 'L' :: '-' :: '2' :: c :: '1' :: rest ∧
         OptDotExt rest) ∨
       ".spdx".toList <:+ s ∨
       (∃ c e, e ∈ spdxExts ∧ (".spdx".toList ++ c :: e.toList) <:+ s)) := by
  unfold is_ignored_file license_file_pat copying_file_pat dot_git_file_pat
    gitkeep_file_pat hgtags_file_pat dot_license_file_pat spdx_file_pat
  simp only [Bool.or_eq_true, List.isPrefixOf_iff_prefix,
    List.isSuffixOf_iff_suffix, beq_iff_eq, cal_file_pat_iff,
    shl_file_pat_iff, spdx_data_pat_iff, or_assoc]

end Reuse
